import Mathlib

/-!
Shallow embedding of the core of `smallwat3r/secretapi`:

* `src/pkg/utility/crypto.go` — the envelope codec (`Encrypt` / `Decrypt`):
  a versioned `"v1:" + base64(salt ‖ nonce ‖ ciphertext)` blob, with the key
  derived from the passcode and salt via Argon2id and the payload protected by
  AES-256-GCM.  The external cryptographic primitives (Argon2id, AES-GCM,
  base64) are not code of this repository; they are modelled as an abstract
  `Prims` bundle carrying their standard contracts, and a concrete toy
  instance `toyPrims` is supplied so that the theorems can be evaluated on
  concrete inputs.  Bytes are modelled as `List Nat`.

* `src/internal/domain/repository.go` — the Redis-backed secret repository
  (`DelIfMatch`, `IncrFailAndMaybeDelete`): the per-identifier slice of the
  Redis store is modelled as a `Store` record (secret value + PTTL, attempts
  counter + PTTL), the `Watch` transaction body as a pure state transition,
  and transaction conflicts as a boolean oracle indexed by the retry attempt.
-/

namespace Secretapi

/-! ### Constants (crypto.go and constants.go) -/

def saltLen : Nat := 16

def nonceLen : Nat := 12

/-- MaxReadAttempts from `src/internal/domain/constants.go`. -/
def MaxReadAttempts : Int := 3

/-- Bound maxWatchRetries from `src/internal/domain/repository.go`. -/
def maxWatchRetries : Nat := 3

/-! ### Envelope codec (crypto.go) -/

/-- Errors returned by `Decrypt`, one per `return nil, err` site. -/
inductive CryptoErr where
  | unsupportedFormat
  | badB64
  | blobTooShort
  | authFailed
deriving DecidableEq, Repr

/-- Bundle of the external primitives used by crypto.go (Argon2id key
derivation, AES-GCM seal/open, base64 encode/decode), together with their
standard contracts: GCM decryption inverts encryption under the same key and
nonce, authentication fails under a different key, the sealed ciphertext is
nonempty (it carries a tag), base64 decoding inverts encoding, and the KDF is
collision-free in the passcode for a fixed salt. -/
structure Prims where
  deriveKey : String → List Nat → List Nat
  gcmSeal : List Nat → List Nat → List Nat → List Nat
  gcmOpen : List Nat → List Nat → List Nat → Option (List Nat)
  b64enc : List Nat → List Nat
  b64dec : List Nat → Option (List Nat)
  gcm_open_seal : ∀ k n p, gcmOpen k n (gcmSeal k n p) = some p
  gcm_auth : ∀ k k2 n p, k ≠ k2 → gcmOpen k2 n (gcmSeal k n p) = none
  gcm_seal_pos : ∀ k n p, 0 < (gcmSeal k n p).length
  b64_dec_enc : ∀ bs, b64dec (b64enc bs) = some bs
  deriveKey_inj : ∀ c c2 s, deriveKey c s = deriveKey c2 s → c = c2

/-- Byte rendering of the `"v1:"` version prefix ('v' = 118, '1' = 49, ':' = 58). -/
def v1Prefix : List Nat := [118, 49, 58]

/-- Encrypt from crypto.go.  The salt and nonce are the fresh random bytes
drawn from `rand.Reader` inside the Go function; here they are explicit
parameters standing for that randomness.  Output is
`"v1:" + base64(salt ‖ nonce ‖ ciphertext)` as bytes. -/
def Encrypt (P : Prims) (salt nonce plaintext : List Nat) (passcode : String) :
    List Nat :=
  let key := P.deriveKey passcode salt
  let ct := P.gcmSeal key nonce plaintext
  let raw := salt ++ nonce ++ ct
  v1Prefix ++ P.b64enc raw

/-- Decrypt from crypto.go: check the `"v1:"` prefix, base64-decode, check
the decoded payload holds at least salt + nonce + 1 byte, slice it as
`raw[:16] / raw[16:28] / raw[28:]`, derive the key and GCM-open. -/
def Decrypt (P : Prims) (blob : List Nat) (passcode : String) :
    Except CryptoErr (List Nat) :=
  if v1Prefix.isPrefixOf blob then
    match P.b64dec (blob.drop 3) with
    | none => .error .badB64
    | some raw =>
      if raw.length < saltLen + nonceLen + 1 then .error .blobTooShort
      else
        let salt := raw.take saltLen
        let nonce := (raw.drop saltLen).take nonceLen
        let ct := raw.drop (saltLen + nonceLen)
        match P.gcmOpen (P.deriveKey passcode salt) nonce ct with
        | none => .error .authFailed
        | some pt => .ok pt
  else .error .unsupportedFormat

/-! ### A concrete instance of the primitives, for evaluating witnesses -/

/-- Toy authenticated cipher: prepend the plaintext length and append the key
and nonce as a tag. -/
def toySeal (k n p : List Nat) : List Nat := p.length :: (p ++ k ++ n)

/-- Toy authenticated opening: succeed exactly when the tag matches the
presented key and nonce. -/
def toyOpen (k n : List Nat) (ct : List Nat) : Option (List Nat) :=
  match ct with
  | [] => none
  | l :: rest => if rest.drop l = k ++ n then some (rest.take l) else none

/-- Toy key derivation: a separator byte followed by the passcode's
characters, salted by prepending the salt. -/
def toyKdf (c : String) (s : List Nat) : List Nat :=
  s ++ 0 :: c.data.map Char.toNat

/-- Concrete primitive bundle used to evaluate the crypto theorems on
explicit inputs. -/
def toyPrims : Prims where
  deriveKey := toyKdf
  gcmSeal := toySeal
  gcmOpen := toyOpen
  b64enc := id
  b64dec := some
  gcm_open_seal := by
    intro k n p
    simp [toyOpen, toySeal, List.drop_append, List.take_append]
  gcm_auth := by
    intro k k2 n p h
    simp only [toyOpen, toySeal, List.append_assoc, List.drop_left]
    rw [if_neg]
    intro hc
    exact h (List.append_cancel_right hc)
  gcm_seal_pos := by intro k n p; simp [toySeal]
  b64_dec_enc := by intro bs; rfl
  deriveKey_inj := by
    intro c c2 s h
    simp only [toyKdf, List.append_cancel_left_eq, List.cons.injEq, true_and] at h
    have hdata : c.data = c2.data := by
      refine List.map_injective_iff.mpr ?_ h
      intro a b hab
      exact Char.ext (UInt32.ext hab)
    cases c; cases c2; exact congrArg String.mk hdata

/-! ### Redis-backed repository (repository.go)

A single identifier touches two Redis keys: `secret:<id>` (the blob) and
`secret:attempts:<id>` (the failure counter).  `Store` models that slice of
the database: each key's optional value together with its PTTL in
milliseconds (Redis PTTL semantics: a nonnegative number of milliseconds, or
`-1` for a key with no expiry; PTTL on an absent key answers `-2`, which the
accessors below produce from `none`). -/
structure Store where
  secret : Option (List Nat)
  secretTTL : Int
  attempts : Option Int
  attemptsTTL : Int
deriving DecidableEq, Repr

/-- PTTL of the secret key (`-2` when absent, as in Redis). -/
def Store.pttlSecret (s : Store) : Int :=
  match s.secret with
  | none => -2
  | some _ => s.secretTTL

/-- PTTL of the attempts key (`-2` when absent, as in Redis). -/
def Store.pttlAttempts (s : Store) : Int :=
  match s.attempts with
  | none => -2
  | some _ => s.attemptsTTL

/-- Errors crossing the repository boundary: `txFailed` is the
`redis.TxFailedErr` sentinel (transaction aborted), `storeErr` any other
Redis error. -/
inductive RErr where
  | txFailed
  | storeErr
deriving DecidableEq, Repr

/-! #### IncrFailAndMaybeDelete -/

/-- Body of the `Watch` transaction in `IncrFailAndMaybeDelete`
(repository.go): if the secret key is absent return with no write and no
count; otherwise read the secret's PTTL, increment the attempts counter
(Redis `INCR` creates an absent counter at 1 with no expiry), re-arm the
counter's expiry to the secret's PTTL when that is positive, and if the
post-increment count has reached `MaxReadAttempts` delete both keys.
Returns the updated store and the `cnt` pipeline result (`none` when the
secret was absent and `cnt` stayed nil). -/
def incrTxBody (s : Store) : Store × Option Int :=
  match s.secret with
  | none => (s, none)
  | some _ =>
    let ttl := s.secretTTL
    let cnt := s.attempts.getD 0 + 1
    let attTTL :=
      if 0 < ttl then ttl
      else match s.attempts with
        | none => -1
        | some _ => s.attemptsTTL
    let s1 : Store := { s with attempts := some cnt, attemptsTTL := attTTL }
    if MaxReadAttempts ≤ cnt then
      ({ s1 with secret := none, attempts := none }, some cnt)
    else (s1, some cnt)

/-- One `Watch` call of `IncrFailAndMaybeDelete`: when the attempt hits a
transaction conflict (a concurrent writer touched a watched key) the commit
fails with `TxFailedErr` and no write lands; otherwise the body runs. -/
def watchIncr (s : Store) (conflictNow : Bool) : Store × Option Int × Option RErr :=
  if conflictNow then (s, none, some .txFailed)
  else
    let r := incrTxBody s
    (r.1, r.2, none)

/-- Retry loop of `IncrFailAndMaybeDelete`: up to `maxWatchRetries` `Watch`
calls, retrying (and resetting `cnt` to nil) exactly when the error is
`TxFailedErr`.  `conflict i` says whether the i-th attempt hits a conflict.
Returns the final store, the surviving `cnt`, and the last error. -/
def incrFailLoop (conflict : Nat → Bool) : Nat → Nat → Store → Store × Option Int × Option RErr
  | _, 0, s => (s, none, some .txFailed)
  | i, fuel + 1, s =>
    let r := watchIncr s (conflict i)
    match r.2.2 with
    | some .txFailed => incrFailLoop conflict (i + 1) fuel r.1
    | _ => r

/-- IncrFailAndMaybeDelete from repository.go: run the retry loop, then
return `(0, err)` for a non-`TxFailedErr` error, `(0, nil)` when `cnt` is
nil (secret absent, or retries exhausted), and `(cnt.Val(), nil)` otherwise.
Result: final store, returned count, returned error. -/
def IncrFailAndMaybeDelete (conflict : Nat → Bool) (s : Store) :
    Store × Int × Option RErr :=
  let r := incrFailLoop conflict 0 maxWatchRetries s
  match r.2.2 with
  | some .storeErr => (r.1, 0, some .storeErr)
  | _ =>
    match r.2.1 with
    | none => (r.1, 0, none)
    | some v => (r.1, v, none)

/-! #### DelIfMatch -/

/-- Body of the `Watch` transaction in `DelIfMatch` (repository.go): if the
key is absent succeed as a no-op; if the current value is not byte-equal to
`old` return `redis.TxFailedErr` (abort); if equal, issue the delete, whose
commit fails with `TxFailedErr` when the attempt hits a conflict. -/
def delTxBody (s : Store) (old : List Nat) (conflictNow : Bool) : Store × Option RErr :=
  match s.secret with
  | none => (s, none)
  | some cur =>
    if cur = old then
      if conflictNow then (s, some .txFailed)
      else ({ s with secret := none }, none)
    else (s, some .txFailed)

/-- Retry loop of `DelIfMatch`: up to `maxWatchRetries` `Watch` calls,
retrying exactly when the error is `TxFailedErr`.  The third component
counts how many times the transaction body was executed. -/
def delLoop (old : List Nat) (conflict : Nat → Bool) :
    Nat → Nat → Store → Store × Option RErr × Nat
  | 0, used, s => (s, some .txFailed, used)
  | fuel + 1, used, s =>
    let r := delTxBody s old (conflict used)
    match r.2 with
    | some .txFailed => delLoop old conflict fuel (used + 1) r.1
    | _ => (r.1, r.2, used + 1)

/-- DelIfMatch from repository.go: run the retry loop, then return the error
only when it is non-nil and not `TxFailedErr` (a lingering `TxFailedErr` is
swallowed and `nil` is returned).  Result: final store, returned error, and
the number of transaction-body executions. -/
def DelIfMatch (conflict : Nat → Bool) (s : Store) (old : List Nat) :
    Store × Option RErr × Nat :=
  let r := delLoop old conflict maxWatchRetries 0 s
  match r.2.1 with
  | some .storeErr => (r.1, some .storeErr, r.2.2)
  | _ => (r.1, none, r.2.2)

/-- Oracle for runs in which no transaction attempt hits a conflict. -/
def noConflict : Nat → Bool := fun _ => false

/-! ### Crypto lemmas and claim theorems -/

/-- Decrypting an `Encrypt` output with any passcode reaches the GCM-open
step on exactly the salt, nonce and ciphertext that `Encrypt` assembled. -/
theorem decrypt_encrypt_eq (P : Prims) (salt nonce p : List Nat) (c c2 : String)
    (hs : salt.length = saltLen) (hn : nonce.length = nonceLen) :
    Decrypt P (Encrypt P salt nonce p c) c2 =
      match P.gcmOpen (P.deriveKey c2 salt) nonce
          (P.gcmSeal (P.deriveKey c salt) nonce p) with
      | none => .error .authFailed
      | some pt => .ok pt := by
  have hpos := P.gcm_seal_pos (P.deriveKey c salt) nonce p
  simp only [Encrypt, Decrypt]
  rw [if_pos (by simp [ List.isPrefixOf_iff_prefix])]
  have hdrop : ∀ x : List Nat, (v1Prefix ++ x).drop 3 = x := by
    intro x; simp [v1Prefix]
  rw [hdrop, P.b64_dec_enc]
  have hlen : ¬((salt ++ nonce ++ P.gcmSeal (P.deriveKey c salt) nonce p).length <
      saltLen + nonceLen + 1) := by
    simp only [List.length_append, hs, hn, saltLen, nonceLen]
    omega
  have h1 : (salt ++ nonce ++ P.gcmSeal (P.deriveKey c salt) nonce p).take saltLen
      = salt := by
    rw [List.append_assoc]; exact List.take_left' hs
  have h2 : ((salt ++ nonce ++ P.gcmSeal (P.deriveKey c salt) nonce p).drop
      saltLen).take nonceLen = nonce := by
    rw [List.append_assoc, List.drop_left' hs]; exact List.take_left' hn
  have h3 : (salt ++ nonce ++ P.gcmSeal (P.deriveKey c salt) nonce p).drop
      (saltLen + nonceLen) = P.gcmSeal (P.deriveKey c salt) nonce p :=
    List.drop_left' (by simp [hs, hn])
  simp only [if_neg hlen, h1, h2, h3]

/-- Claim C1: for every plaintext `p` and code `c` (and any fresh salt of 16 bytes
and nonce of 12 bytes drawn inside `Encrypt`), decrypting the blob produced
by `Encrypt` with the same code recovers the original plaintext:
`Decrypt (Encrypt p c) c = ok p`. -/
theorem open_seal_roundtrip (P : Prims) (salt nonce p : List Nat) (c : String)
    (hs : salt.length = saltLen) (hn : nonce.length = nonceLen) :
    Decrypt P (Encrypt P salt nonce p c) c = .ok p := by
  rw [decrypt_encrypt_eq P salt nonce p c c hs hn, P.gcm_open_seal]

theorem open_seal_roundtrip_witness :
    Decrypt toyPrims
      (Encrypt toyPrims (List.replicate 16 1) (List.replicate 12 2) [7, 8] "pw")
      "pw" = .ok [7, 8] :=
  open_seal_roundtrip toyPrims (List.replicate 16 1) (List.replicate 12 2)
    [7, 8] "pw" (by decide) (by decide)

/-- Claim C5: for every plaintext `p`, code `c` and code `c2 ≠ c`, decrypting the
blob produced by `Encrypt` under `c` with the wrong code `c2` fails with the
authentication-failure error and returns no plaintext. -/
theorem open_wrong_code_auth_failure (P : Prims) (salt nonce p : List Nat)
    (c c2 : String) (hs : salt.length = saltLen) (hn : nonce.length = nonceLen)
    (hne : c2 ≠ c) :
    Decrypt P (Encrypt P salt nonce p c) c2 = .error .authFailed := by
  rw [decrypt_encrypt_eq P salt nonce p c c2 hs hn]
  rw [P.gcm_auth _ _ _ _ (fun hk => hne (P.deriveKey_inj c2 c salt hk.symm))]

theorem open_wrong_code_auth_failure_witness :
    Decrypt toyPrims
      (Encrypt toyPrims (List.replicate 16 1) (List.replicate 12 2) [7, 8] "pw")
      "qw" = .error .authFailed :=
  open_wrong_code_auth_failure toyPrims (List.replicate 16 1)
    (List.replicate 12 2) [7, 8] "pw" "qw" (by decide) (by decide) (by decide)

/-- Claim C7: two `Encrypt` calls on the same (plaintext, code) pair with distinct
freshly sampled salts produce distinct blobs (regardless of the nonces). -/
theorem seal_fresh_randomness_distinct_blobs (P : Prims)
    (salt1 salt2 nonce1 nonce2 p : List Nat) (c : String)
    (hs1 : salt1.length = saltLen) (hs2 : salt2.length = saltLen)
    (hne : salt1 ≠ salt2) :
    Encrypt P salt1 nonce1 p c ≠ Encrypt P salt2 nonce2 p c := by
  intro h
  apply hne
  simp only [Encrypt] at h
  have henc := List.append_cancel_left h
  have hraw : some (salt1 ++ nonce1 ++ P.gcmSeal (P.deriveKey c salt1) nonce1 p)
      = some (salt2 ++ nonce2 ++ P.gcmSeal (P.deriveKey c salt2) nonce2 p) := by
    rw [← P.b64_dec_enc, henc, P.b64_dec_enc]
  have hraw2 := Option.some.inj hraw
  have := congrArg (List.take saltLen) hraw2
  rwa [List.append_assoc, List.take_left' hs1, List.append_assoc,
    List.take_left' hs2] at this

theorem seal_fresh_randomness_distinct_blobs_witness :
    Encrypt toyPrims (List.replicate 16 1) (List.replicate 12 2) [7, 8] "pw" ≠
      Encrypt toyPrims (List.replicate 16 3) (List.replicate 12 2) [7, 8] "pw" :=
  seal_fresh_randomness_distinct_blobs toyPrims (List.replicate 16 1)
    (List.replicate 16 3) (List.replicate 12 2) (List.replicate 12 2) [7, 8]
    "pw" (by decide) (by decide) (by decide)

/-- Claim C10: `Decrypt` is total — on every blob and passcode it returns either a
plaintext or an error — and whenever the decoded payload passes the length
check (at least salt + nonce + 1 byte) the salt / nonce / ciphertext slices
are in bounds: they have lengths 16, 12 and at least 1, and reassemble to
the whole payload. -/
theorem decrypt_total_and_slices_in_bounds (P : Prims) :
    (∀ (blob : List Nat) (c : String),
      (∃ p, Decrypt P blob c = .ok p) ∨ (∃ e, Decrypt P blob c = .error e)) ∧
    (∀ raw : List Nat, saltLen + nonceLen + 1 ≤ raw.length →
      (raw.take saltLen).length = saltLen ∧
      ((raw.drop saltLen).take nonceLen).length = nonceLen ∧
      1 ≤ (raw.drop (saltLen + nonceLen)).length ∧
      raw.take saltLen ++ ((raw.drop saltLen).take nonceLen ++
        raw.drop (saltLen + nonceLen)) = raw) := by
  constructor
  · intro blob c
    cases h : Decrypt P blob c with
    | ok p => exact Or.inl ⟨p, rfl⟩
    | error e => exact Or.inr ⟨e, rfl⟩
  · intro raw hraw
    simp only [saltLen, nonceLen] at hraw ⊢
    refine ⟨?_, ?_, ?_, ?_⟩
    · rw [List.length_take]; omega
    · rw [List.length_take, List.length_drop]; omega
    · rw [List.length_drop]; omega
    · rw [← List.drop_drop]
      rw [List.take_append_drop, List.take_append_drop]

theorem decrypt_total_and_slices_in_bounds_witness :
    ((∃ p, Decrypt toyPrims [0, 1] "pw" = .ok p) ∨
      (∃ e, Decrypt toyPrims [0, 1] "pw" = .error e)) ∧
    (((List.replicate 29 0).take saltLen).length = saltLen ∧
      (((List.replicate 29 0).drop saltLen).take nonceLen).length = nonceLen ∧
      1 ≤ ((List.replicate 29 0).drop (saltLen + nonceLen)).length ∧
      (List.replicate 29 0).take saltLen ++
        (((List.replicate 29 0).drop saltLen).take nonceLen ++
          (List.replicate 29 0).drop (saltLen + nonceLen)) = List.replicate 29 0) :=
  ⟨(decrypt_total_and_slices_in_bounds toyPrims).1 [0, 1] "pw",
    (decrypt_total_and_slices_in_bounds toyPrims).2 (List.replicate 29 0)
      (by decide)⟩

/-! ### Repository lemmas and claim theorems -/

theorem incrFailLoop_noConflict (i fuel : Nat) (s : Store) :
    incrFailLoop noConflict i (fuel + 1) s =
      ((incrTxBody s).1, (incrTxBody s).2, none) := rfl

/-- With no transaction conflicts, `IncrFailAndMaybeDelete` runs its body
exactly once and returns the body's count (0 when the body left `cnt` nil)
with no error. -/
theorem incrFail_noConflict (s : Store) :
    IncrFailAndMaybeDelete noConflict s =
      ((incrTxBody s).1, (incrTxBody s).2.getD 0, none) := by
  have hl : incrFailLoop noConflict 0 maxWatchRetries s =
      ((incrTxBody s).1, (incrTxBody s).2, none) :=
    incrFailLoop_noConflict 0 2 s
  simp only [IncrFailAndMaybeDelete, hl]
  cases h : (incrTxBody s).2 <;> simp

theorem incrTxBody_present (s : Store) (v : List Nat) (hsec : s.secret = some v) :
    (incrTxBody s).2 = some (s.attempts.getD 0 + 1) ∧
    (incrTxBody s).1.secretTTL = s.secretTTL ∧
    (if MaxReadAttempts ≤ s.attempts.getD 0 + 1 then
      (incrTxBody s).1.secret = none ∧ (incrTxBody s).1.attempts = none
    else
      (incrTxBody s).1.secret = some v ∧
        (incrTxBody s).1.attempts = some (s.attempts.getD 0 + 1)) := by
  simp only [incrTxBody, hsec]
  split <;> simp [hsec]

/-- Claim C2: with the secret present and a fresh counter, `IncrFailAndMaybeDelete`
increments then checks: the first two calls return counts 1 and 2 leaving the
secret in place (remaining attempts 2 and 1), and the third call — the
`MaxReadAttempts`-th consecutive failure — returns count 3, reports exactly
zero remaining attempts, and leaves both the secret and the counter absent. -/
theorem incr_three_consecutive_failures_evict (s0 : Store) (v : List Nat)
    (hsec : s0.secret = some v) (hatt : s0.attempts = none) :
    let r1 := IncrFailAndMaybeDelete noConflict s0
    let r2 := IncrFailAndMaybeDelete noConflict r1.1
    let r3 := IncrFailAndMaybeDelete noConflict r2.1
    r1.2.1 = 1 ∧ r1.2.2 = none ∧ r1.1.secret = some v ∧
    r2.2.1 = 2 ∧ r2.2.2 = none ∧ r2.1.secret = some v ∧
    r3.2.1 = 3 ∧ r3.2.2 = none ∧
    r3.1.secret = none ∧ r3.1.attempts = none ∧
    MaxReadAttempts - r1.2.1 = 2 ∧ MaxReadAttempts - r2.2.1 = 1 ∧
    MaxReadAttempts - r3.2.1 = 0 := by
  obtain ⟨h1c, h1t, h1s⟩ := incrTxBody_present s0 v hsec
  rw [hatt] at h1c h1s
  norm_num [MaxReadAttempts] at h1c h1s
  obtain ⟨h2c, h2t, h2s⟩ := incrTxBody_present _ v h1s.1
  rw [h1s.2] at h2c h2s
  norm_num [MaxReadAttempts] at h2c h2s
  obtain ⟨h3c, h3t, h3s⟩ := incrTxBody_present _ v h2s.1
  rw [h2s.2] at h3c h3s
  norm_num [MaxReadAttempts] at h3c h3s
  simp only [incrFail_noConflict]
  simp [h1c, h1s.1, h1s.2, h2c, h2s.1, h2s.2, h3c, h3s.1, h3s.2, MaxReadAttempts]

theorem incr_three_consecutive_failures_evict_witness :
    (IncrFailAndMaybeDelete noConflict ⟨some [5], 1000, none, -2⟩).2.1 = 1 ∧
    (IncrFailAndMaybeDelete noConflict ⟨some [5], 1000, none, -2⟩).2.2 = none ∧
    (IncrFailAndMaybeDelete noConflict ⟨some [5], 1000, none, -2⟩).1.secret =
      some [5] ∧
    (IncrFailAndMaybeDelete noConflict
      (IncrFailAndMaybeDelete noConflict ⟨some [5], 1000, none, -2⟩).1).2.1 = 2 ∧
    (IncrFailAndMaybeDelete noConflict
      (IncrFailAndMaybeDelete noConflict ⟨some [5], 1000, none, -2⟩).1).2.2 =
      none ∧
    (IncrFailAndMaybeDelete noConflict
      (IncrFailAndMaybeDelete noConflict ⟨some [5], 1000, none, -2⟩).1).1.secret =
      some [5] ∧
    (IncrFailAndMaybeDelete noConflict (IncrFailAndMaybeDelete noConflict
      (IncrFailAndMaybeDelete noConflict ⟨some [5], 1000, none, -2⟩).1).1).2.1 =
      3 ∧
    (IncrFailAndMaybeDelete noConflict (IncrFailAndMaybeDelete noConflict
      (IncrFailAndMaybeDelete noConflict ⟨some [5], 1000, none, -2⟩).1).1).2.2 =
      none ∧
    (IncrFailAndMaybeDelete noConflict (IncrFailAndMaybeDelete noConflict
      (IncrFailAndMaybeDelete noConflict
        ⟨some [5], 1000, none, -2⟩).1).1).1.secret = none ∧
    (IncrFailAndMaybeDelete noConflict (IncrFailAndMaybeDelete noConflict
      (IncrFailAndMaybeDelete noConflict
        ⟨some [5], 1000, none, -2⟩).1).1).1.attempts = none ∧
    MaxReadAttempts -
      (IncrFailAndMaybeDelete noConflict ⟨some [5], 1000, none, -2⟩).2.1 = 2 ∧
    MaxReadAttempts - (IncrFailAndMaybeDelete noConflict
      (IncrFailAndMaybeDelete noConflict ⟨some [5], 1000, none, -2⟩).1).2.1 =
      1 ∧
    MaxReadAttempts - (IncrFailAndMaybeDelete noConflict
      (IncrFailAndMaybeDelete noConflict (IncrFailAndMaybeDelete noConflict
        ⟨some [5], 1000, none, -2⟩).1).1).2.1 = 0 :=
  incr_three_consecutive_failures_evict ⟨some [5], 1000, none, -2⟩ [5] rfl rfl

/-- Claim C6: whenever the transaction body of `IncrFailAndMaybeDelete` increments
the counter (secret present, with a positive remaining TTL `t`), the
surviving counter's TTL is re-armed to exactly `t` within the same
transaction, so after the body the counter's TTL never exceeds the secret's
remaining TTL. -/
theorem incr_rearms_counter_ttl (s : Store) (v : List Nat) (t : Int)
    (hsec : s.secret = some v) (ht : s.secretTTL = t) (hpos : 0 < t) :
    ((incrTxBody s).1.attempts.isSome →
      (incrTxBody s).1.attemptsTTL = t ∧ (incrTxBody s).1.secretTTL = t) ∧
    (incrTxBody s).1.pttlAttempts ≤ (incrTxBody s).1.pttlSecret := by
  simp only [incrTxBody, hsec, ht]
  rw [if_pos hpos]
  split
  · simp [Store.pttlAttempts, Store.pttlSecret]
  · simp [Store.pttlAttempts, Store.pttlSecret]

theorem incr_rearms_counter_ttl_witness :
    (((incrTxBody ⟨some [1], 500, none, -2⟩).1.attempts.isSome →
      (incrTxBody ⟨some [1], 500, none, -2⟩).1.attemptsTTL = 500 ∧
      (incrTxBody ⟨some [1], 500, none, -2⟩).1.secretTTL = 500) ∧
    (incrTxBody ⟨some [1], 500, none, -2⟩).1.pttlAttempts ≤
      (incrTxBody ⟨some [1], 500, none, -2⟩).1.pttlSecret) :=
  incr_rearms_counter_ttl ⟨some [1], 500, none, -2⟩ [1] 500 rfl rfl (by decide)

theorem incrFailLoop_absent (conflict : Nat → Bool) (s : Store)
    (hs : s.secret = none) :
    ∀ fuel i, (incrFailLoop conflict i fuel s).1 = s ∧
      (incrFailLoop conflict i fuel s).2.1 = none ∧
      ((incrFailLoop conflict i fuel s).2.2 = none ∨
        (incrFailLoop conflict i fuel s).2.2 = some .txFailed) := by
  intro fuel
  induction fuel with
  | zero => intro i; exact ⟨rfl, rfl, Or.inr rfl⟩
  | succ n ih =>
    intro i
    by_cases h : conflict i
    · simpa [incrFailLoop, watchIncr, h] using ih (i + 1)
    · simp [incrFailLoop, watchIncr, h, incrTxBody, hs]

/-- Claim C8: calling `IncrFailAndMaybeDelete` on an identifier whose secret key is
absent is a no-op for any interleaving of transaction conflicts: the store is
unchanged (in particular no failure counter is created), the returned count
is 0 and no error is returned. -/
theorem incr_absent_secret_noop (conflict : Nat → Bool) (s : Store)
    (hs : s.secret = none) :
    IncrFailAndMaybeDelete conflict s = (s, 0, none) := by
  obtain ⟨h1, h2, h3⟩ := incrFailLoop_absent conflict s hs maxWatchRetries 0
  simp only [IncrFailAndMaybeDelete]
  rcases h3 with h3 | h3 <;> simp [h1, h2, h3]

theorem incr_absent_secret_noop_witness :
    IncrFailAndMaybeDelete (fun i => i % 2 == 0) ⟨none, -2, none, -2⟩ =
      (⟨none, -2, none, -2⟩, 0, none) :=
  incr_absent_secret_noop (fun i => i % 2 == 0) ⟨none, -2, none, -2⟩ rfl

/-- Claim C4, counterexample: with the secret present and every transaction attempt
conflicting, `IncrFailAndMaybeDelete` exhausts its 3 retries and returns
count 0 with a nil error — a success result, not a surfaced transient
error. -/
theorem incr_retries_exhausted_counterexample :
    (IncrFailAndMaybeDelete (fun _ => true) ⟨some [1], 1000, none, -2⟩).2.2 =
      none ∧
    (IncrFailAndMaybeDelete (fun _ => true) ⟨some [1], 1000, none, -2⟩).2.1 =
      0 := ⟨rfl, rfl⟩

/-- Claim C4, amended: when every transaction attempt conflicts,
`IncrFailAndMaybeDelete` exhausts its `maxWatchRetries` (3) attempts, leaves
the store unchanged, and returns count 0 with no error: the lingering
`TxFailedErr` is swallowed by the final error check and by the `cnt == nil`
fallback, so the caller sees a success indistinguishable from the
absent-secret no-op. -/
theorem incr_retries_exhausted_swallowed (s : Store) :
    IncrFailAndMaybeDelete (fun _ => true) s = (s, 0, none) := rfl

theorem delLoop_mismatch (old : List Nat) (conflict : Nat → Bool) (s : Store)
    (cur : List Nat) (hsec : s.secret = some cur) (hne : cur ≠ old) :
    ∀ fuel used, delLoop old conflict fuel used s =
      (s, some .txFailed, used + fuel) := by
  intro fuel
  induction fuel with
  | zero => intro used; simp [delLoop]
  | succ n ih =>
    intro used
    simp only [delLoop, delTxBody, hsec]
    rw [if_neg hne]
    simp only [ih (used + 1)]
    rw [Nat.add_assoc, Nat.add_comm 1 n]

/-- On a store whose value differs from `old`, `DelIfMatch` runs its
transaction body `maxWatchRetries` times (each run aborts with the
`TxFailedErr` sentinel), leaves the store unchanged, and returns no error. -/
theorem delIfMatch_mismatch_eq (conflict : Nat → Bool) (s : Store)
    (cur old : List Nat) (hsec : s.secret = some cur) (hne : cur ≠ old) :
    DelIfMatch conflict s old = (s, none, maxWatchRetries) := by
  have h := delLoop_mismatch old conflict s cur hsec hne maxWatchRetries 0
  simp only [DelIfMatch, h]
  simp [maxWatchRetries]

/-- Claim C3, counterexample: with the stored value `[1]` differing from the
expected blob `[2]` and no concurrent writers, `DelIfMatch` executes its
read-modify-write transaction body 3 times — not once, so the mismatch abort
is retried — though it indeed never deletes the stored value. -/
theorem del_mismatch_retries_counterexample :
    (DelIfMatch noConflict ⟨some [1], 1000, none, -2⟩ [2]).2.2 = 3 ∧
    ¬(DelIfMatch noConflict ⟨some [1], 1000, none, -2⟩ [2]).2.2 = 1 ∧
    (DelIfMatch noConflict ⟨some [1], 1000, none, -2⟩ [2]).1.secret =
      some [1] := by decide

/-- Claim C3, amended: when the stored value is present but not byte-equal to the
expected blob, each transaction-body run aborts with the `TxFailedErr`
sentinel and — because that sentinel is indistinguishable from a genuine
transaction conflict — the abort is retried until the `maxWatchRetries` (3)
bound is exhausted; the stored value is never deleted and the call returns
no error. -/
theorem del_mismatch_abort_retried_no_delete (conflict : Nat → Bool)
    (s : Store) (cur old : List Nat) (hsec : s.secret = some cur)
    (hne : cur ≠ old) :
    DelIfMatch conflict s old = (s, none, maxWatchRetries) :=
  delIfMatch_mismatch_eq conflict s cur old hsec hne

theorem del_mismatch_abort_retried_no_delete_witness :
    DelIfMatch (fun i => i % 2 == 0) ⟨some [1, 2], 900, some 1, 900⟩ [3] =
      (⟨some [1, 2], 900, some 1, 900⟩, none, maxWatchRetries) :=
  del_mismatch_abort_retried_no_delete (fun i => i % 2 == 0)
    ⟨some [1, 2], 900, some 1, 900⟩ [1, 2] [3] rfl (by decide)

/-- Claim C9: when the stored value persistently differs byte-wise from `old`,
`DelIfMatch` returns success (nil error) after its aborts — the
value-mismatch abort is swallowed by the final error check, so the caller
cannot distinguish this outcome from a completed delete — and the stored
value is left unchanged. -/
theorem del_mismatch_swallowed_success (conflict : Nat → Bool) (s : Store)
    (cur old : List Nat) (hsec : s.secret = some cur) (hne : cur ≠ old) :
    (DelIfMatch conflict s old).2.1 = none ∧ (DelIfMatch conflict s old).1 = s := by
  rw [delIfMatch_mismatch_eq conflict s cur old hsec hne]
  exact ⟨rfl, rfl⟩

theorem del_mismatch_swallowed_success_witness :
    (DelIfMatch noConflict ⟨some [9], 700, none, -2⟩ [8]).2.1 = none ∧
    (DelIfMatch noConflict ⟨some [9], 700, none, -2⟩ [8]).1 =
      ⟨some [9], 700, none, -2⟩ :=
  del_mismatch_swallowed_success noConflict ⟨some [9], 700, none, -2⟩ [9] [8]
    rfl (by decide)

end Secretapi
